import Mathlib

/-!
Verification of the risk & execution engine of the `algo_trading` repository.

The definitions below are a shallow embedding of the Python sources:
  * `src/execution/paper.py`        (`PaperPosition`, `PaperExecutor`)
  * `src/risk/risk_manager.py`      (`RiskManager`)
  * `src/risk/entry_cluster_guard.py` (`EntryClusterGuard`)
  * `src/strategy/signal_engine.py` plus the filter/guard modules it calls
  * the open/abort fragment of `src/app/run_paper_live.py`

Python floats are modelled as exact rationals (ℚ), Python ints as ℤ (bar
indices, configuration counts) or ℕ (identifiers, counters that the code
only ever increments from zero).  A Python `dict.get` is modelled by a
total function into `Option`; the executor's per-pair position dict is
modelled as a total function returning `[]` for absent keys, which is
observationally equivalent to the source's `setdefault`/`not in` handling.
-/

inductive Side where
  | LONG
  | SHORT
  deriving DecidableEq, Repr

inductive ExitReason where
  | SL
  | TP
  | TIME
  | NO_ATR
  deriving DecidableEq, Repr

/-- Mirrors the dataclass `PaperPosition` in `src/execution/paper.py`;
the entry timestamp is abstracted to an integer. -/
structure PaperPosition where
  trade_id : ℕ
  pair : String
  entry_ts : ℤ
  side : Side
  entry_price : ℚ
  units : ℚ
  sl : ℚ
  tp : ℚ
  bars_held : ℕ
  deriving DecidableEq, Repr

/-- State of `PaperExecutor`: the constructor parameters plus the
per-pair ledger `positions` (absent key ≡ empty list). -/
structure PaperExecutor where
  sl_atr_mult : ℚ
  tp_r_mult : ℚ
  time_stop_bars : ℤ
  positions : String → List PaperPosition

/-- One element of the `closed` list returned by `update_bar`:
the tuple `(pos, ts, exit_price, pnl, reason)`. -/
structure ClosedTrade where
  position : PaperPosition
  exit_ts : ℤ
  exit_price : ℚ
  pnl : ℚ
  reason : ExitReason
  deriving DecidableEq, Repr

/-- Embeds `PaperExecutor.total_open`. -/
def total_open (ex : PaperExecutor) (pairs : List String) : ℕ :=
  (pairs.map (fun p => (ex.positions p).length)).sum

/-- Embeds `PaperExecutor.open_long`: returns the optional new position and the
updated executor (the side effect of appending to the ledger). -/
def open_long (ex : PaperExecutor) (trade_id : ℕ) (pair : String) (ts : ℤ)
    (price atr14 risk_amount : ℚ) : Option PaperPosition × PaperExecutor :=
  let sl_dist := ex.sl_atr_mult * atr14
  if sl_dist ≤ 0 then (none, ex)
  else
    let sl := price - sl_dist
    let tp := price + ex.tp_r_mult * sl_dist
    let units := risk_amount / sl_dist
    let pos : PaperPosition := ⟨trade_id, pair, ts, .LONG, price, units, sl, tp, 0⟩
    (some pos,
     { ex with positions := fun q => if q = pair then ex.positions pair ++ [pos] else ex.positions q })

/-- Embeds `PaperExecutor.open_short`: SL above entry, TP below entry. -/
def open_short (ex : PaperExecutor) (trade_id : ℕ) (pair : String) (ts : ℤ)
    (price atr14 risk_amount : ℚ) : Option PaperPosition × PaperExecutor :=
  let sl_dist := ex.sl_atr_mult * atr14
  if sl_dist ≤ 0 then (none, ex)
  else
    let sl := price + sl_dist
    let tp := price - ex.tp_r_mult * sl_dist
    let units := risk_amount / sl_dist
    let pos : PaperPosition := ⟨trade_id, pair, ts, .SHORT, price, units, sl, tp, 0⟩
    (some pos,
     { ex with positions := fun q => if q = pair then ex.positions pair ++ [pos] else ex.positions q })

/-- The per-position body of the `for pos in self.positions[pair]` loop of
`PaperExecutor.update_bar`: increment `bars_held`, evaluate SL before TP
(conservative ordering), then the time stop; result is either the
still-open position or the exit data `(pos, exit_price, pnl, reason)`. -/
def step_position (time_stop_bars : ℤ) (high low close : ℚ) (pos : PaperPosition) :
    PaperPosition ⊕ (PaperPosition × ℚ × ℚ × ExitReason) :=
  let pos := { pos with bars_held := pos.bars_held + 1 }
  let hit : Option (ℚ × ExitReason) :=
    match pos.side with
    | .LONG =>
        if low ≤ pos.sl then some (pos.sl, .SL)
        else if high ≥ pos.tp then some (pos.tp, .TP)
        else none
    | .SHORT =>
        if high ≥ pos.sl then some (pos.sl, .SL)
        else if low ≤ pos.tp then some (pos.tp, .TP)
        else none
  let hit : Option (ℚ × ExitReason) :=
    match hit with
    | none => if (pos.bars_held : ℤ) ≥ time_stop_bars then some (close, .TIME) else none
    | some h => some h
  match hit with
  | none => .inl pos
  | some (price, reason) =>
      let pnl :=
        match pos.side with
        | .LONG => (price - pos.entry_price) * pos.units
        | .SHORT => (pos.entry_price - price) * pos.units
      .inr (pos, price, pnl, reason)

/-- Embeds `PaperExecutor.update_bar`: returns `(still, closed)` and the updated
executor whose ledger slice for `pair` has been replaced by `still`. -/
def update_bar (ex : PaperExecutor) (pair : String) (ts : ℤ) (high low close : ℚ) :
    (List PaperPosition × List ClosedTrade) × PaperExecutor :=
  let l := ex.positions pair
  let still := l.filterMap fun p => (step_position ex.time_stop_bars high low close p).getLeft?
  let closed := l.filterMap fun p =>
    ((step_position ex.time_stop_bars high low close p).getRight?).map
      fun e => ⟨e.1, ts, e.2.1, e.2.2.1, e.2.2.2⟩
  ((still, closed),
   { ex with positions := fun q => if q = pair then still else ex.positions q })

/-- The pure effect of one `update_bar` pass on a position that stays open
or exits: `pos.bars_held += 1`. -/
def advance_position (pos : PaperPosition) : PaperPosition :=
  { pos with bars_held := pos.bars_held + 1 }

/-- The bar touches both the stop and the target of the position
(LONG: `low ≤ sl` and `high ≥ tp`; SHORT: `high ≥ sl` and `low ≤ tp`). -/
def both_touched (pos : PaperPosition) (high low : ℚ) : Bool :=
  match pos.side with
  | .LONG => decide (low ≤ pos.sl) && decide (high ≥ pos.tp)
  | .SHORT => decide (high ≥ pos.sl) && decide (low ≤ pos.tp)

/-- The spec's per-position price invariant: `stop < entry < target` for
LONG, `target < entry < stop` for SHORT. -/
def pos_ok (p : PaperPosition) : Bool :=
  match p.side with
  | .LONG => decide (p.sl < p.entry_price) && decide (p.entry_price < p.tp)
  | .SHORT => decide (p.tp < p.entry_price) && decide (p.entry_price < p.sl)

/-! ## Entry cluster guard (`src/risk/entry_cluster_guard.py`) -/

/-- Mirrors the dataclass `ClusterDecision`. -/
structure ClusterDecision where
  allow : Bool
  reason : String
  deriving Repr

/-- State of `EntryClusterGuard`: parsed configuration plus the six
per-pair dictionaries (`dict.get` modelled by `Option`). -/
structure EntryClusterGuard where
  enabled : Bool
  cooldown_bars : ℤ
  max_same_side : ℤ
  window_bars : ℤ
  block_after_losses : ℤ
  pause_bars_after_loss_streak : ℤ
  last_trade_bar : String → Option ℤ
  last_side : String → Option Side
  same_side_count : String → Option ℤ
  same_side_window_start : String → Option ℤ
  loss_streak : String → Option ℤ
  pause_until_bar : String → Option ℤ

/-- Point update of a `dict` modelled as a total function into `Option`. -/
def dset {α : Type} (f : String → Option α) (k : String) (v : α) : String → Option α :=
  fun q => if q = k then some v else f q

/-- The pause check of `can_enter`: a recorded pause bar strictly above
the requested bar index denies the entry. -/
def pause_denies (g : EntryClusterGuard) (pair : String) (bar_index : ℤ) : Bool :=
  match g.pause_until_bar pair with
  | some pu => decide (bar_index < pu)
  | none => false

/-- The cooldown check of `can_enter`: a recorded last trade bar within
`cooldown_bars` bars denies the entry. -/
def cooldown_denies (g : EntryClusterGuard) (pair : String) (bar_index : ℤ) : Bool :=
  match g.last_trade_bar pair with
  | some lb => decide (bar_index - lb ≤ g.cooldown_bars)
  | none => false

/-- Embeds `EntryClusterGuard.can_enter`: returns the decision and the
(possibly mutated) guard state. -/
def can_enter (g : EntryClusterGuard) (pair : String) (side : Side) (bar_index : ℤ) :
    ClusterDecision × EntryClusterGuard :=
  if g.enabled = false then (⟨true, "cluster_guard_disabled"⟩, g)
  else
    if pause_denies g pair bar_index then (⟨false, "paused_until_bar"⟩, g)
    else
      if cooldown_denies g pair bar_index then (⟨false, "cooldown_active"⟩, g)
      else
        if g.last_side pair = some side then
          let start := (g.same_side_window_start pair).getD bar_index
          let g : EntryClusterGuard :=
            if bar_index - start > g.window_bars then
              { g with same_side_window_start := dset g.same_side_window_start pair bar_index,
                       same_side_count := dset g.same_side_count pair 1 }
            else
              let c := (g.same_side_count pair).getD 1 + 1
              { g with same_side_count := dset g.same_side_count pair c }
          if (g.same_side_count pair).getD 1 > g.max_same_side then
            (⟨false, "same_side_cluster"⟩, g)
          else (⟨true, "cluster_ok"⟩, g)
        else
          let g := { g with same_side_window_start := dset g.same_side_window_start pair bar_index,
                            same_side_count := dset g.same_side_count pair 1 }
          (⟨true, "cluster_ok"⟩, g)

/-- Embeds `EntryClusterGuard.on_trade_closed`. -/
def on_trade_closed (g : EntryClusterGuard) (pair : String) (side : Side)
    (bar_index : ℤ) (pnl : ℚ) : EntryClusterGuard :=
  if g.enabled = false then g
  else
    let g := { g with last_trade_bar := dset g.last_trade_bar pair bar_index,
                      last_side := dset g.last_side pair side }
    if pnl < 0 then
      let ls := (g.loss_streak pair).getD 0 + 1
      let g := { g with loss_streak := dset g.loss_streak pair ls }
      if ls ≥ g.block_after_losses then
        { g with pause_until_bar := dset g.pause_until_bar pair (bar_index + g.pause_bars_after_loss_streak) }
      else g
    else { g with loss_streak := dset g.loss_streak pair 0 }

/-! ## Risk manager (`src/risk/risk_manager.py`).  The cluster guard it
owns is kept separately above; the fields here are the equity state. -/

structure RiskManager where
  starting_equity : ℚ
  daily_max_loss : ℚ
  risk_per_trade : ℚ
  start_equity_day : ℚ
  equity : ℚ
  halted : Bool

/-- Embeds `RiskManager.day_dd` (ℚ division is total: `x / 0 = 0`; the source
would raise on a zero baseline, a state it never constructs from a
positive starting equity). -/
def day_dd (rm : RiskManager) : ℚ :=
  (rm.equity - rm.start_equity_day) / rm.start_equity_day

/-- Embeds `RiskManager.reset_day`. -/
def reset_day (rm : RiskManager) : RiskManager :=
  { rm with start_equity_day := rm.equity, halted := false }

/-- Embeds `RiskManager.update_equity`. -/
def update_equity (rm : RiskManager) (new_equity : ℚ) : RiskManager :=
  let rm := { rm with equity := new_equity }
  if day_dd rm ≤ -rm.daily_max_loss then { rm with halted := true } else rm

/-- Embeds `RiskManager.can_trade`: returns the verdict and the (possibly
mutated) state, since the breach check sets `halted`. -/
def can_trade (rm : RiskManager) : Bool × RiskManager :=
  if rm.halted then (false, rm)
  else if day_dd rm ≤ -rm.daily_max_loss then (false, { rm with halted := true })
  else (true, rm)

/-- Embeds `RiskManager.risk_amount`. -/
def risk_amount (rm : RiskManager) : ℚ :=
  rm.equity * rm.risk_per_trade

/-- One call against the risk manager's equity state: either
`update_equity(e)` or a `can_trade()` query (whose verdict is dropped but
whose state mutation is kept). -/
inductive RMEvent where
  | upd (e : ℚ)
  | query

/-- State after a sequence of `update_equity` / `can_trade` calls. -/
def rm_run (rm : RiskManager) : List RMEvent → RiskManager
  | [] => rm
  | .upd e :: evs => rm_run (update_equity rm e) evs
  | .query :: evs => rm_run (can_trade rm).2 evs

/-! ## Entry filters and signal engine
(`src/features/regime_filter.py`, `src/features/volatility_filter.py`,
`src/strategy/trend_guard.py`, `src/strategy/signal_engine.py`).
Optional float inputs become `Option ℚ`; the parsed configuration
dictionaries become structures holding exactly the fields the Python
constructors extract. -/

structure RegimeCfg where
  enabled : Bool
  slope_lookback : ℤ
  slope_min_atr_frac : ℚ
  adx_min_trend : ℚ
  allow_range_trades : Bool

structure RegimeDecision where
  regime : String
  allow_long : Bool
  allow_short : Bool
  reason : String
  deriving Repr

/-- Embeds `RegimeFilter.decide`. -/
def regime_decide (f : RegimeCfg) (price ema_trend : ℚ) (ema_trend_prev : Option ℚ)
    (atr : ℚ) (adx : Option ℚ) (ema_diff : Option ℚ) : RegimeDecision :=
  if f.enabled = false then
    let d := ema_diff.getD 0
    ⟨"none", decide (d > 0), decide (d < 0), "regime_disabled"⟩
  else
    let atr := max atr (1 / 1000000000)
    let prev := ema_trend_prev.getD ema_trend
    let slope := ema_trend - prev
    let slope_ok := decide (|slope| ≥ f.slope_min_atr_frac * atr)
    let adx_ok :=
      match adx with
      | none => true
      | some a => decide (a ≥ f.adx_min_trend)
    let is_trend := slope_ok && adx_ok
    let regime := if is_trend then "trend" else "range"
    let direction :=
      match ema_diff with
      | some d => d
      | none => price - ema_trend
    if regime = "range" && f.allow_range_trades = false then
      ⟨"range", false, false, "range_blocked"⟩
    else
      ⟨regime, decide (direction > 0), decide (direction < 0),
       regime ++ ": slope_ok=" ++ toString slope_ok ++ ", adx_ok=" ++ toString adx_ok⟩

structure VolCfg where
  enabled : Bool
  atr_min : ℚ
  atr_max : ℚ
  block_on_spike : Bool
  vol_spike_z : ℚ

structure VolDecision where
  allow : Bool
  reason : String
  deriving Repr

/-- Embeds `VolatilityFilter.decide`. -/
def vol_decide (f : VolCfg) (atr : ℚ) (vol_z : Option ℚ) : VolDecision :=
  if f.enabled = false then ⟨true, "vol_disabled"⟩
  else if atr < f.atr_min then ⟨false, "atr_too_low"⟩
  else if atr > f.atr_max then ⟨false, "atr_too_high"⟩
  else
    match vol_z with
    | some z => if f.block_on_spike && decide (z ≥ f.vol_spike_z) then ⟨false, "vol_spike"⟩
                else ⟨true, "vol_ok"⟩
    | none => ⟨true, "vol_ok"⟩

structure TrendCfg where
  enabled : Bool
  req_above_for_long : Bool
  req_below_for_short : Bool

structure TrendGuardDecision where
  allow_long : Bool
  allow_short : Bool
  reason : String
  deriving Repr

/-- Embeds `TrendGuard.decide`. -/
def trend_guard_decide (f : TrendCfg) (price ema_trend : ℚ) : TrendGuardDecision :=
  if f.enabled = false then ⟨true, true, "trend_guard_disabled"⟩
  else
    let allow_long := if f.req_above_for_long && decide (price ≤ ema_trend) then false else true
    let allow_short := if f.req_below_for_short && decide (price ≥ ema_trend) then false else true
    ⟨allow_long, allow_short, "trend_guard_ok"⟩

/-- The three configuration sections the v2 signal functions read:
`cfg.filters.regime`, `cfg.filters.volatility`, `cfg.guards.counter_trend`. -/
structure Cfg where
  regime : RegimeCfg
  volatility : VolCfg
  counter_trend : TrendCfg

/-- Embeds `should_open_long_v2`. -/
def should_open_long_v2 (p_up ema_diff prob_threshold price ema_trend : ℚ)
    (ema_trend_prev : Option ℚ) (atr : ℚ) (adx vol_z : Option ℚ) (cfg : Cfg) : Bool :=
  let base := decide (p_up ≥ prob_threshold) && decide (ema_diff > 0)
  if base = false then false
  else
    let r := regime_decide cfg.regime price ema_trend ema_trend_prev atr adx (some ema_diff)
    if r.allow_long = false then false
    else
      let v := vol_decide cfg.volatility atr vol_z
      if v.allow = false then false
      else
        let g := trend_guard_decide cfg.counter_trend price ema_trend
        if g.allow_long = false then false
        else true

/-- Embeds `should_open_short_v2`. -/
def should_open_short_v2 (p_up ema_diff prob_threshold price ema_trend : ℚ)
    (ema_trend_prev : Option ℚ) (atr : ℚ) (adx vol_z : Option ℚ) (cfg : Cfg) : Bool :=
  let base := decide (1 - p_up ≥ prob_threshold) && decide (ema_diff < 0)
  if base = false then false
  else
    let r := regime_decide cfg.regime price ema_trend ema_trend_prev atr adx (some ema_diff)
    if r.allow_short = false then false
    else
      let v := vol_decide cfg.volatility atr vol_z
      if v.allow = false then false
      else
        let g := trend_guard_decide cfg.counter_trend price ema_trend
        if g.allow_short = false then false
        else true

/-- The entry-side selection of the run loop in `src/app/run_paper_live.py`:
`should_open_long_v2` first, `should_open_short_v2` only in the `elif`. -/
def select_side (p_up ema_diff prob_threshold price ema_trend : ℚ)
    (ema_trend_prev : Option ℚ) (atr : ℚ) (adx vol_z : Option ℚ) (cfg : Cfg) : Option Side :=
  if should_open_long_v2 p_up ema_diff prob_threshold price ema_trend ema_trend_prev atr adx vol_z cfg then
    some .LONG
  else if should_open_short_v2 p_up ema_diff prob_threshold price ema_trend ema_trend_prev atr adx vol_z cfg then
    some .SHORT
  else none

/-- A row written by `close_trade` in `src/storage/sqlite.py`:
`(trade_id, exit_ts, exit_price, pnl, reason)`. -/
structure TradeRow where
  trade_id : ℕ
  exit_ts : ℤ
  exit_price : ℚ
  pnl : ℚ
  reason : ExitReason
  deriving DecidableEq, Repr

/-- The open/abort fragment of the run loop in `src/app/run_paper_live.py`:
call `open_long`/`open_short`; when the executor returns no position,
record exactly one closed trade `(trade_id, ts, close price, 0.0, NO_ATR)`. -/
def attempt_open (ex : PaperExecutor) (side : Side) (trade_id : ℕ) (pair : String)
    (ts : ℤ) (price atr14 risk : ℚ) : PaperExecutor × List TradeRow :=
  let r :=
    match side with
    | .LONG => open_long ex trade_id pair ts price atr14 risk
    | .SHORT => open_short ex trade_id pair ts price atr14 risk
  match r.1 with
  | none => (r.2, [⟨trade_id, ts, price, 0, .NO_ATR⟩])
  | some _ => (r.2, [])

/-! ## Helper lemmas about the executor's per-position step -/

theorem dset_same {α : Type} (f : String → Option α) (k : String) (v : α) :
    dset f k v k = some v := by
  simp [dset]

theorem step_position_inl (t : ℤ) (high low close : ℚ) (p q : PaperPosition)
    (h : step_position t high low close p = .inl q) : q = advance_position p := by
  cases hside : p.side <;> simp only [step_position, hside] at h <;>
    split at h <;> simp_all [advance_position]

theorem step_position_inr (t : ℤ) (high low close : ℚ) (p : PaperPosition)
    (e : PaperPosition × ℚ × ℚ × ExitReason)
    (h : step_position t high low close p = .inr e) : e.1 = advance_position p := by
  cases hside : p.side <;> simp only [step_position, hside] at h <;>
    split at h
  case LONG.h_1 => simp_all
  case LONG.h_2 => injection h with h; subst h; simp [advance_position, hside]
  case SHORT.h_1 => simp_all
  case SHORT.h_2 => injection h with h; subst h; simp [advance_position, hside]

theorem advance_position_inj (p q : PaperPosition)
    (h : advance_position p = advance_position q) : p = q := by
  cases p
  cases q
  simp only [advance_position, PaperPosition.mk.injEq] at h ⊢
  obtain ⟨h1, h2, h3, h4, h5, h6, h7, h8, h9⟩ := h
  exact ⟨h1, h2, h3, h4, h5, h6, h7, h8, by omega⟩

theorem both_touched_advance (p : PaperPosition) (high low : ℚ) :
    both_touched (advance_position p) high low = both_touched p high low := by
  cases hside : p.side <;> simp [both_touched, advance_position, hside]

theorem update_bar_still_eq (ex : PaperExecutor) (pair : String) (ts : ℤ)
    (high low close : ℚ) :
    (update_bar ex pair ts high low close).1.1 =
      (ex.positions pair).filterMap
        (fun p => (step_position ex.time_stop_bars high low close p).getLeft?) := rfl

theorem update_bar_closed_eq (ex : PaperExecutor) (pair : String) (ts : ℤ)
    (high low close : ℚ) :
    (update_bar ex pair ts high low close).1.2 =
      (ex.positions pair).filterMap
        (fun p => ((step_position ex.time_stop_bars high low close p).getRight?).map
          (fun e => ⟨e.1, ts, e.2.1, e.2.2.1, e.2.2.2⟩)) := rfl

theorem update_bar_positions_eq (ex : PaperExecutor) (pair : String) (ts : ℤ)
    (high low close : ℚ) (q : String) :
    (update_bar ex pair ts high low close).2.positions q =
      if q = pair then (update_bar ex pair ts high low close).1.1
      else ex.positions q := rfl

theorem getRight?_eq_some {α β : Type} (x : α ⊕ β) (b : β)
    (h : x.getRight? = some b) : x = .inr b := by
  cases x <;> simp_all [Sum.getRight?]

theorem getLeft?_eq_some {α β : Type} (x : α ⊕ β) (a : α)
    (h : x.getLeft? = some a) : x = .inl a := by
  cases x <;> simp_all [Sum.getLeft?]

theorem step_position_of_both_touched (t : ℤ) (high low close : ℚ) (p : PaperPosition)
    (hb : both_touched p high low = true) :
    step_position t high low close p =
      .inr (advance_position p, p.sl,
        (match p.side with
         | .LONG => (p.sl - p.entry_price) * p.units
         | .SHORT => (p.entry_price - p.sl) * p.units), .SL) := by
  unfold both_touched at hb
  cases hside : p.side <;> rw [hside] at hb <;>
    simp only [Bool.and_eq_true, decide_eq_true_eq] at hb <;>
    simp [step_position, advance_position, hside, hb.1]

/-! ## Claim C1 -/

/-- Claim C1: in a single `update_bar` call, every open position whose stop
and target are both touched by the bar (LONG: `low ≤ sl` and `high ≥ tp`;
SHORT: `high ≥ sl` and `low ≤ tp`) is closed with reason `SL` — never `TP` —
and its recorded exit price is the stop level itself, not the bar extreme. -/
theorem c1_both_touched_exits_SL (ex : PaperExecutor) (pair : String) (ts : ℤ)
    (high low close : ℚ) :
    (∀ p ∈ ex.positions pair, both_touched p high low = true →
       ∃ c ∈ (update_bar ex pair ts high low close).1.2,
         c.position = advance_position p ∧ c.reason = .SL ∧ c.exit_price = p.sl)
    ∧ (∀ c ∈ (update_bar ex pair ts high low close).1.2,
       both_touched c.position high low = true →
         c.reason = .SL ∧ c.exit_price = c.position.sl) := by
  constructor
  · intro p hp hb
    have hstep := step_position_of_both_touched ex.time_stop_bars high low close p hb
    refine ⟨⟨advance_position p, ts, p.sl,
      (match p.side with
       | .LONG => (p.sl - p.entry_price) * p.units
       | .SHORT => (p.entry_price - p.sl) * p.units), .SL⟩, ?_, rfl, rfl, rfl⟩
    rw [update_bar_closed_eq]
    refine List.mem_filterMap.mpr ⟨p, hp, ?_⟩
    rw [hstep]
    rfl
  · intro c hc hb
    rw [update_bar_closed_eq] at hc
    obtain ⟨q, hq, hf⟩ := List.mem_filterMap.mp hc
    obtain ⟨e, he, hfe⟩ := Option.map_eq_some'.mp hf
    have hstep := getRight?_eq_some _ _ he
    have he1 : e.1 = advance_position q := step_position_inr _ _ _ _ _ _ hstep
    have hcpos : c.position = advance_position q := by
      rw [← hfe, ← he1]
    have hbq : both_touched q high low = true := by
      rw [hcpos, both_touched_advance] at hb
      exact hb
    rw [step_position_of_both_touched ex.time_stop_bars high low close q hbq] at hstep
    have he2 := (Sum.inr.injEq _ _).mp hstep.symm
    subst he2
    constructor
    · rw [← hfe]
    · rw [← hfe]
      simp [advance_position]

/-- Witness for C1 at a concrete input: a LONG position with stop 1 and
target 3 evaluated on a bar with low 0 and high 4 exits with reason `SL`
at price 1. -/
theorem c1_witness :
    ∃ c ∈ (update_bar ⟨1, 2, 40, fun _ => [⟨7, "EURUSD", 0, .LONG, 2, 5, 1, 3, 0⟩]⟩
        "EURUSD" 1 4 0 2).1.2,
      c.position = advance_position ⟨7, "EURUSD", 0, .LONG, 2, 5, 1, 3, 0⟩
      ∧ c.reason = .SL ∧ c.exit_price = (⟨7, "EURUSD", 0, .LONG, 2, 5, 1, 3, 0⟩ : PaperPosition).sl :=
  (c1_both_touched_exits_SL ⟨1, 2, 40, fun _ => [⟨7, "EURUSD", 0, .LONG, 2, 5, 1, 3, 0⟩]⟩
      "EURUSD" 1 4 0 2).1
    ⟨7, "EURUSD", 0, .LONG, 2, 5, 1, 3, 0⟩ (by simp) (by norm_num [both_touched])

/-! ## Claim C5 -/

/-- Every position of the evaluated list lands, with its bars-held counter
incremented, either in the still-open list or (as the position of) exactly
one closed record: the two output lists of one `update_bar` pass partition
the advanced input list. -/
theorem update_bar_partition_aux (t : ℤ) (high low close : ℚ) (ts : ℤ)
    (l : List PaperPosition) :
    ((l.filterMap fun p => (step_position t high low close p).getLeft?) ++
      ((l.filterMap fun p => ((step_position t high low close p).getRight?).map
          (fun e => (⟨e.1, ts, e.2.1, e.2.2.1, e.2.2.2⟩ : ClosedTrade))).map
        ClosedTrade.position)).Perm
      (l.map advance_position) := by
  induction l with
  | nil => simp
  | cons p l ih =>
    cases hs : step_position t high low close p with
    | inl q =>
      have hq := step_position_inl t high low close p q hs
      simp only [List.filterMap_cons, hs, Sum.getLeft?, Sum.getRight?, Option.map_none',
        List.map_cons, List.cons_append, hq]
      exact ih.cons _
    | inr e =>
      have he := step_position_inr t high low close p e hs
      simp only [List.filterMap_cons, hs, Sum.getLeft?, Sum.getRight?, Option.map_some',
        List.map_cons, List.cons_append, he]
      exact List.perm_middle.trans (ih.cons _)

/-- Claim C5: a single `update_bar` call is atomic per position — each
position open on the instrument before the call appears afterwards (with
bars-held incremented) either in `still` or as exactly one entry of
`closed`, never in both and never in neither, and the ledgers of all other
instruments are untouched. -/
theorem c5_advance_atomic (ex : PaperExecutor) (pair : String) (ts : ℤ)
    (high low close : ℚ) :
    (((update_bar ex pair ts high low close).1.1 ++
        ((update_bar ex pair ts high low close).1.2.map ClosedTrade.position)).Perm
      ((ex.positions pair).map advance_position))
    ∧ (∀ p ∈ (update_bar ex pair ts high low close).1.1,
        p ∉ (update_bar ex pair ts high low close).1.2.map ClosedTrade.position)
    ∧ ((update_bar ex pair ts high low close).2.positions pair =
        (update_bar ex pair ts high low close).1.1)
    ∧ (∀ q, q ≠ pair →
        (update_bar ex pair ts high low close).2.positions q = ex.positions q) := by
  refine ⟨?_, ?_, ?_, ?_⟩
  · rw [update_bar_still_eq, update_bar_closed_eq]
    exact update_bar_partition_aux ex.time_stop_bars high low close ts (ex.positions pair)
  · intro p hp hmem
    rw [update_bar_still_eq] at hp
    obtain ⟨a, ha, hfa⟩ := List.mem_filterMap.mp hp
    have hsa : step_position ex.time_stop_bars high low close a = .inl p :=
      getLeft?_eq_some _ _ hfa
    obtain ⟨c, hc, hcp⟩ := List.mem_map.mp hmem
    rw [update_bar_closed_eq] at hc
    obtain ⟨b, hb, hfb⟩ := List.mem_filterMap.mp hc
    obtain ⟨e, he, hfe⟩ := Option.map_eq_some'.mp hfb
    have hsb : step_position ex.time_stop_bars high low close b = .inr e :=
      getRight?_eq_some _ _ he
    have hpa : p = advance_position a := step_position_inl _ _ _ _ _ _ hsa
    have hpe : e.1 = advance_position b := step_position_inr _ _ _ _ _ _ hsb
    have hcpos : c.position = e.1 := by rw [← hfe]
    have hab : a = b := by
      apply advance_position_inj
      rw [← hpa, ← hpe, ← hcpos, hcp]
    rw [hab, hsb] at hsa
    exact Sum.noConfusion hsa
  · rw [update_bar_positions_eq]
    simp
  · intro q hq
    rw [update_bar_positions_eq]
    simp [hq]

/-- Witness for C5 at a concrete input: an executor holding one LONG
position that neither exits nor times out keeps it (advanced) in `still`,
with an empty `closed` list and the other instrument slices unchanged. -/
theorem c5_witness :
    (update_bar ⟨1, 2, 40, fun q => if q = "EURUSD" then [⟨7, "EURUSD", 0, .LONG, 2, 5, 1, 3, 0⟩] else []⟩
        "EURUSD" 1 (5/2) (3/2) 2).2.positions "GBPUSD" = [] :=
  (c5_advance_atomic ⟨1, 2, 40, fun q => if q = "EURUSD" then [⟨7, "EURUSD", 0, .LONG, 2, 5, 1, 3, 0⟩] else []⟩
      "EURUSD" 1 (5/2) (3/2) 2).2.2.2 "GBPUSD" (by decide)

/-! ## Claim C2 (corrected: the source never validates `tp_r_mult`, so the
ordering invariant needs `0 < tp_r_mult`; with `tp_r_mult = 0` a successful
`open_long` puts a position with `target = entry` into the ledger) -/

/-- Counterexample to C2 as stated: an executor constructed with
`tp_r_mult = 0` (which no code path rejects) successfully opens a LONG
position whose ledger entry violates `stop < entry < target`. -/
theorem c2_counterexample :
    ((open_long ⟨1, 0, 40, fun _ => []⟩ 1 "EURUSD" 0 1 1 1).2.positions "EURUSD").map pos_ok
      = [false] := by
  norm_num [open_long, pos_ok]

/-- Claim C2 (amended): for an executor whose target R-multiple is
positive, every position a successful `open_long`/`open_short` returns
satisfies `stop < entry < target` (LONG) resp. `target < entry < stop`
(SHORT), and `update_bar` never changes the stop, target, entry price or
side of any ledger position. -/
theorem c2_price_invariant (ex : PaperExecutor) (htp : 0 < ex.tp_r_mult) :
    (∀ tid pair2 ts price atr risk p ex',
       open_long ex tid pair2 ts price atr risk = (some p, ex') → pos_ok p = true)
    ∧ (∀ tid pair2 ts price atr risk p ex',
       open_short ex tid pair2 ts price atr risk = (some p, ex') → pos_ok p = true)
    ∧ (∀ pair2 ts high low close q p,
       p ∈ (update_bar ex pair2 ts high low close).2.positions q →
         ∃ p0 ∈ ex.positions q,
           p.sl = p0.sl ∧ p.tp = p0.tp ∧ p.entry_price = p0.entry_price ∧ p.side = p0.side) := by
  refine ⟨?_, ?_, ?_⟩
  · intro tid pair2 ts price atr risk p ex' h
    rw [open_long] at h
    split_ifs at h with hd
    · exact absurd (congrArg Prod.fst h) (by simp)
    · push_neg at hd
      have hp := congrArg Prod.fst h
      simp only [Option.some.injEq] at hp
      rw [← hp]
      simp only [pos_ok]
      rw [Bool.and_eq_true, decide_eq_true_eq, decide_eq_true_eq]
      constructor
      · linarith
      · have := mul_pos htp hd
        linarith
  · intro tid pair2 ts price atr risk p ex' h
    rw [open_short] at h
    split_ifs at h with hd
    · exact absurd (congrArg Prod.fst h) (by simp)
    · push_neg at hd
      have hp := congrArg Prod.fst h
      simp only [Option.some.injEq] at hp
      rw [← hp]
      simp only [pos_ok]
      rw [Bool.and_eq_true, decide_eq_true_eq, decide_eq_true_eq]
      constructor
      · have := mul_pos htp hd
        linarith
      · linarith
  · intro pair2 ts high low close q p hp
    rw [update_bar_positions_eq] at hp
    by_cases hq : q = pair2
    · rw [if_pos hq] at hp
      rw [update_bar_still_eq] at hp
      obtain ⟨a, ha, hfa⟩ := List.mem_filterMap.mp hp
      have hsa := getLeft?_eq_some _ _ hfa
      have hpa : p = advance_position a := step_position_inl _ _ _ _ _ _ hsa
      subst hq
      exact ⟨a, ha, by simp [hpa, advance_position]⟩
    · rw [if_neg hq] at hp
      exact ⟨p, hp, rfl, rfl, rfl, rfl⟩

/-- Witness for the amended C2 at a concrete input: a position carried
through an `update_bar` call that closes nothing keeps its price fields. -/
theorem c2_witness :
    ∃ p0 ∈ ((⟨1, 3, 40, fun _ => [⟨7, "EURUSD", 0, .LONG, 2, 5, 1, 4, 0⟩]⟩ : PaperExecutor).positions "EURUSD"),
      (advance_position ⟨7, "EURUSD", 0, .LONG, 2, 5, 1, 4, 0⟩).sl = p0.sl
      ∧ (advance_position ⟨7, "EURUSD", 0, .LONG, 2, 5, 1, 4, 0⟩).tp = p0.tp
      ∧ (advance_position ⟨7, "EURUSD", 0, .LONG, 2, 5, 1, 4, 0⟩).entry_price = p0.entry_price
      ∧ (advance_position ⟨7, "EURUSD", 0, .LONG, 2, 5, 1, 4, 0⟩).side = p0.side :=
  (c2_price_invariant ⟨1, 3, 40, fun _ => [⟨7, "EURUSD", 0, .LONG, 2, 5, 1, 4, 0⟩]⟩
      (by norm_num)).2.2 "EURUSD" 1 2 (3/2) 2 "EURUSD"
    (advance_position ⟨7, "EURUSD", 0, .LONG, 2, 5, 1, 4, 0⟩)
    (by norm_num [update_bar_positions_eq, update_bar_still_eq, step_position,
      advance_position, List.filterMap_cons, Sum.getLeft?])

/-! ## Claim C3 -/

/-- Claim C3: an open attempt with ATR ≤ 0 (hence stop distance
`sl_atr_mult × atr ≤ 0`, the multiplier being non-negative) returns no
position, leaves the executor's ledger untouched, and the run loop records
exactly one closed trade with reason `NO_ATR` and pnl = 0. -/
theorem c3_no_atr_abort (ex : PaperExecutor) (side : Side) (tid : ℕ) (pair : String)
    (ts : ℤ) (price atr risk : ℚ) (hatr : atr ≤ 0) (hmult : 0 ≤ ex.sl_atr_mult) :
    (open_long ex tid pair ts price atr risk).1 = none
    ∧ (open_short ex tid pair ts price atr risk).1 = none
    ∧ (attempt_open ex side tid pair ts price atr risk).1 = ex
    ∧ (attempt_open ex side tid pair ts price atr risk).2 = [⟨tid, ts, price, 0, .NO_ATR⟩] := by
  have hd : ex.sl_atr_mult * atr ≤ 0 := by nlinarith
  have hl : open_long ex tid pair ts price atr risk = (none, ex) := by
    simp only [open_long]
    rw [if_pos hd]
  have hs : open_short ex tid pair ts price atr risk = (none, ex) := by
    simp only [open_short]
    rw [if_pos hd]
  refine ⟨by rw [hl], by rw [hs], ?_, ?_⟩ <;>
    cases side <;> simp [attempt_open, hl, hs]

/-- Witness for C3 at a concrete input: ATR = 0 with multiplier 2 yields
no LONG position and the single `NO_ATR`, zero-pnl record. -/
theorem c3_witness :
    (open_long ⟨2, 3, 40, fun _ => []⟩ 9 "EURUSD" 0 (6/5) 0 100).1 = none
    ∧ (open_short ⟨2, 3, 40, fun _ => []⟩ 9 "EURUSD" 0 (6/5) 0 100).1 = none
    ∧ (attempt_open ⟨2, 3, 40, fun _ => []⟩ .LONG 9 "EURUSD" 0 (6/5) 0 100).1 = ⟨2, 3, 40, fun _ => []⟩
    ∧ (attempt_open ⟨2, 3, 40, fun _ => []⟩ .LONG 9 "EURUSD" 0 (6/5) 0 100).2 =
        [⟨9, 0, 6/5, 0, .NO_ATR⟩] :=
  c3_no_atr_abort ⟨2, 3, 40, fun _ => []⟩ .LONG 9 "EURUSD" 0 (6/5) 0 100
    (by norm_num) (by norm_num)

/-! ## Claim C8 -/

/-- The risk-manager state of the spec's numeric scenario:
equity 10000, daily max loss 5%, risk-per-trade 1%. -/
def c8_rm : RiskManager := ⟨10000, 5/100, 1/100, 10000, 10000, false⟩

/-- The executor of the spec's numeric scenario:
`sl_atr_mult = 2`, `tp_r_mult = 3` (the time stop plays no role). -/
def c8_ex : PaperExecutor := ⟨2, 3, 40, fun _ => []⟩

/-- Executor state after opening the scenario's LONG at price 1.2000 with
ATR 0.0010 and the computed risk amount. -/
def c8_ex1 : PaperExecutor := (open_long c8_ex 1 "EURUSD" 0 (6/5) (1/1000) (risk_amount c8_rm)).2

/-- Result of advancing the scenario's bar: high 1.2010, low 1.1975. -/
def c8_r := update_bar c8_ex1 "EURUSD" 1 (1201/1000) (479/400) (6/5)

/-- Claim C8: with equity 10000 and risk-per-trade 1%, `risk_amount` is
100; the LONG opened at 1.2000 with ATR 0.0010 gets stop 1.1980
(= 599/500), target 1.2060 (= 603/500) and size 50000; the bar with
low 1.1975 and high 1.2010 closes it at the stop 1.1980 with reason `SL`
and pnl = −100 — all in exact rational arithmetic. -/
theorem c8_numeric_scenario :
    risk_amount c8_rm = 100
    ∧ (open_long c8_ex 1 "EURUSD" 0 (6/5) (1/1000) (risk_amount c8_rm)).1 =
        some ⟨1, "EURUSD", 0, .LONG, 6/5, 50000, 599/500, 603/500, 0⟩
    ∧ c8_r.1.1 = []
    ∧ c8_r.1.2 = [⟨⟨1, "EURUSD", 0, .LONG, 6/5, 50000, 599/500, 603/500, 1⟩, 1, 599/500, -100, .SL⟩] := by
  refine ⟨?_, ?_, ?_, ?_⟩ <;>
    norm_num [c8_r, c8_ex1, c8_ex, c8_rm, risk_amount, update_bar, open_long, step_position,
      advance_position, List.filterMap_cons, List.filterMap_nil, Sum.getLeft?, Sum.getRight?,
      Option.map]

/-! ## Claim C4 -/

/-- Claim C4: once `halted` is true, any sequence of `update_equity` and
`can_trade` calls leaves it true and every `can_trade` answers false —
even if equity recovers — and only `reset_day` clears the flag, setting
the daily baseline to current equity. -/
theorem c4_halt_sticky (rm : RiskManager) (hh : rm.halted = true) :
    (∀ evs : List RMEvent,
       (rm_run rm evs).halted = true ∧ (can_trade (rm_run rm evs)).1 = false)
    ∧ (∀ rm' : RiskManager,
       (reset_day rm').start_equity_day = rm'.equity ∧ (reset_day rm').halted = false) := by
  have hpres : ∀ (s : RiskManager), s.halted = true →
      ∀ evs : List RMEvent, (rm_run s evs).halted = true := by
    intro s hs evs
    induction evs generalizing s with
    | nil => exact hs
    | cons e evs ih =>
      cases e with
      | upd x =>
        apply ih
        simp only [update_equity]
        split_ifs <;> simp [hs]
      | query =>
        apply ih
        simp [can_trade, hs]
  constructor
  · intro evs
    have h1 := hpres rm hh evs
    exact ⟨h1, by simp [can_trade, h1]⟩
  · intro rm'
    simp [reset_day]

/-- Witness for C4 at a concrete input: a halted manager stays halted and
untradable across an equity recovery to 20000 followed by a query. -/
theorem c4_witness :
    (rm_run ⟨10000, 5/100, 1/100, 10000, 9000, true⟩ [.upd 20000, .query]).halted = true
    ∧ (can_trade (rm_run ⟨10000, 5/100, 1/100, 10000, 9000, true⟩ [.upd 20000, .query])).1 = false :=
  (c4_halt_sticky ⟨10000, 5/100, 1/100, 10000, 9000, true⟩ rfl).1 [.upd 20000, .query]

/-! ## Claim C6 -/

/-- Claim C6: with `cooldown_bars = 2` and a recorded last trade bar `L`,
an entry attempt at bar `L + 2` is denied, and an attempt at bar `L + 3`
passes the cooldown check and is allowed absent the pause and
same-side-streak denials (here: no pause active past `L + 3`, and the
requested side differs from the last recorded side). -/
theorem c6_cooldown_boundary (g : EntryClusterGuard) (pair : String) (side : Side) (L : ℤ)
    (hen : g.enabled = true) (hcd : g.cooldown_bars = 2)
    (hlast : g.last_trade_bar pair = some L)
    (hpause : ∀ pu, g.pause_until_bar pair = some pu → pu ≤ L + 3)
    (hside : g.last_side pair ≠ some side) :
    (can_enter g pair side (L + 2)).1.allow = false
    ∧ (can_enter g pair side (L + 3)).1.allow = true := by
  constructor
  · cases hpd : pause_denies g pair (L + 2) with
    | true => simp [can_enter, hen, hpd]
    | false =>
      have hcool : cooldown_denies g pair (L + 2) = true := by
        simp only [cooldown_denies, hlast, hcd, decide_eq_true_eq]
        omega
      simp [can_enter, hen, hpd, hcool]
  · have hpd : pause_denies g pair (L + 3) = false := by
      simp only [pause_denies]
      cases hp : g.pause_until_bar pair with
      | none => rfl
      | some pu =>
        have := hpause pu hp
        simp only [decide_eq_false_iff_not]
        omega
    have hcool : cooldown_denies g pair (L + 3) = false := by
      simp only [cooldown_denies, hlast, hcd, decide_eq_false_iff_not]
      omega
    simp [can_enter, hen, hpd, hcool, hside]

/-- Witness for C6 at a concrete input: cooldown 2, last trade at bar 10,
no pause, last side LONG; a SHORT attempt at bar 12 is denied and at
bar 13 is allowed. -/
theorem c6_witness :
    (can_enter ⟨true, 2, 2, 12, 2, 8, fun _ => some 10, fun _ => some .LONG,
        fun _ => none, fun _ => none, fun _ => none, fun _ => none⟩ "EURUSD" .SHORT (10 + 2)).1.allow = false
    ∧ (can_enter ⟨true, 2, 2, 12, 2, 8, fun _ => some 10, fun _ => some .LONG,
        fun _ => none, fun _ => none, fun _ => none, fun _ => none⟩ "EURUSD" .SHORT (10 + 3)).1.allow = true :=
  c6_cooldown_boundary ⟨true, 2, 2, 12, 2, 8, fun _ => some 10, fun _ => some .LONG,
      fun _ => none, fun _ => none, fun _ => none, fun _ => none⟩ "EURUSD" .SHORT 10
    rfl rfl rfl (by intro pu h; cases h) (by simp)

/-! ## Claim C7 -/

theorem on_trade_closed_loss_fields (g : EntryClusterGuard) (pair : String) (side : Side)
    (bar : ℤ) (pnl : ℚ) (hen : g.enabled = true) (hp : pnl < 0) :
    (on_trade_closed g pair side bar pnl).loss_streak pair = some ((g.loss_streak pair).getD 0 + 1)
    ∧ (on_trade_closed g pair side bar pnl).enabled = true
    ∧ (on_trade_closed g pair side bar pnl).block_after_losses = g.block_after_losses
    ∧ (on_trade_closed g pair side bar pnl).pause_bars_after_loss_streak = g.pause_bars_after_loss_streak
    ∧ ((g.loss_streak pair).getD 0 + 1 ≥ g.block_after_losses →
       (on_trade_closed g pair side bar pnl).pause_until_bar pair =
         some (bar + g.pause_bars_after_loss_streak))
    ∧ (¬((g.loss_streak pair).getD 0 + 1 ≥ g.block_after_losses) →
       (on_trade_closed g pair side bar pnl).pause_until_bar pair = g.pause_until_bar pair) := by
  simp only [on_trade_closed, hen]
  split_ifs with h0 h1 h2 <;> simp_all [dset]

theorem on_trade_closed_nonloss_fields (g : EntryClusterGuard) (pair : String) (side : Side)
    (bar : ℤ) (pnl : ℚ) (hen : g.enabled = true) (hp : ¬(pnl < 0)) :
    (on_trade_closed g pair side bar pnl).loss_streak pair = some 0
    ∧ (on_trade_closed g pair side bar pnl).enabled = true
    ∧ (on_trade_closed g pair side bar pnl).pause_until_bar = g.pause_until_bar := by
  simp only [on_trade_closed, hen]
  split_ifs with h0 h1 <;> simp_all [dset]

/-- Claim C7: with `block_after_losses = 2`, two consecutive losing closes
(at bars B1 then B2, no intervening non-loss, starting from a non-negative
recorded streak) set paused-until to `B2 + pause_bars_after_loss_streak`;
every entry attempt below that bar is denied, and stays denied after a
third close at bar B3 ≥ B2 whether it is a loss or not; any non-loss close
resets the loss streak to zero. -/
theorem c7_loss_streak_pause (g : EntryClusterGuard) (pair : String)
    (s1 s2 s3 qside : Side) (B1 B2 B3 bar : ℤ) (p1 p2 p3 : ℚ)
    (hen : g.enabled = true) (hblock : g.block_after_losses = 2)
    (hstreak : 0 ≤ (g.loss_streak pair).getD 0)
    (hp1 : p1 < 0) (hp2 : p2 < 0) (hB : B2 ≤ B3) :
    (on_trade_closed (on_trade_closed g pair s1 B1 p1) pair s2 B2 p2).pause_until_bar pair
      = some (B2 + g.pause_bars_after_loss_streak)
    ∧ (bar < B2 + g.pause_bars_after_loss_streak →
       (can_enter (on_trade_closed (on_trade_closed g pair s1 B1 p1) pair s2 B2 p2)
         pair qside bar).1.allow = false)
    ∧ (bar < B2 + g.pause_bars_after_loss_streak →
       (can_enter (on_trade_closed (on_trade_closed (on_trade_closed g pair s1 B1 p1)
           pair s2 B2 p2) pair s3 B3 p3) pair qside bar).1.allow = false)
    ∧ (0 ≤ p3 →
       (on_trade_closed (on_trade_closed (on_trade_closed g pair s1 B1 p1)
           pair s2 B2 p2) pair s3 B3 p3).loss_streak pair = some 0) := by
  obtain ⟨h1s, h1en, h1b, h1p, _, _⟩ :=
    on_trade_closed_loss_fields g pair s1 B1 p1 hen hp1
  obtain ⟨h2s, h2en, h2b, h2p, h2set, _⟩ :=
    on_trade_closed_loss_fields (on_trade_closed g pair s1 B1 p1) pair s2 B2 p2 h1en hp2
  have hg2pause :
      (on_trade_closed (on_trade_closed g pair s1 B1 p1) pair s2 B2 p2).pause_until_bar pair
        = some (B2 + g.pause_bars_after_loss_streak) := by
    rw [← h1p]
    apply h2set
    rw [h1s, h1b, hblock]
    simp only [Option.getD_some]
    omega
  refine ⟨hg2pause, ?_, ?_, ?_⟩
  · intro hbar
    have hpd : pause_denies (on_trade_closed (on_trade_closed g pair s1 B1 p1) pair s2 B2 p2)
        pair bar = true := by
      simp only [pause_denies, hg2pause, decide_eq_true_eq]
      exact hbar
    simp [can_enter, h2en, hpd]
  · intro hbar
    by_cases hp3 : p3 < 0
    · obtain ⟨h3s, h3en, h3b, h3p, h3set, _⟩ :=
        on_trade_closed_loss_fields (on_trade_closed (on_trade_closed g pair s1 B1 p1)
          pair s2 B2 p2) pair s3 B3 p3 h2en hp3
      have hg3pause :
          (on_trade_closed (on_trade_closed (on_trade_closed g pair s1 B1 p1)
              pair s2 B2 p2) pair s3 B3 p3).pause_until_bar pair
            = some (B3 + g.pause_bars_after_loss_streak) := by
        rw [← h1p, ← h2p]
        apply h3set
        rw [h2s, h1s, h2b, h1b, hblock]
        simp only [Option.getD_some]
        omega
      have hpd : pause_denies (on_trade_closed (on_trade_closed (on_trade_closed g pair s1 B1 p1)
          pair s2 B2 p2) pair s3 B3 p3) pair bar = true := by
        simp only [pause_denies, hg3pause, decide_eq_true_eq]
        omega
      simp [can_enter, h3en, hpd]
    · obtain ⟨h3s, h3en, h3pause⟩ :=
        on_trade_closed_nonloss_fields (on_trade_closed (on_trade_closed g pair s1 B1 p1)
          pair s2 B2 p2) pair s3 B3 p3 h2en hp3
      have hpd : pause_denies (on_trade_closed (on_trade_closed (on_trade_closed g pair s1 B1 p1)
          pair s2 B2 p2) pair s3 B3 p3) pair bar = true := by
        simp only [pause_denies, h3pause, hg2pause, decide_eq_true_eq]
        exact hbar
      simp [can_enter, h3en, hpd]
  · intro hp3
    exact (on_trade_closed_nonloss_fields (on_trade_closed (on_trade_closed g pair s1 B1 p1)
      pair s2 B2 p2) pair s3 B3 p3 h2en (not_lt.mpr hp3)).1

/-- Witness for C7 at a concrete input: a fresh guard with
`block_after_losses = 2`, losses at bars 10 and 14 (pnl −5 each), a
break-even third close at bar 20; the pause is set to 14 + 8 = 22 and an
attempt at bar 21 is denied both before and after the third close. -/
theorem c7_witness :
    (on_trade_closed (on_trade_closed ⟨true, 2, 2, 12, 2, 8, fun _ => none, fun _ => none,
        fun _ => none, fun _ => none, fun _ => none, fun _ => none⟩ "EURUSD" .LONG 10 (-5))
        "EURUSD" .LONG 14 (-5)).pause_until_bar "EURUSD" = some (14 + 8)
    ∧ (can_enter (on_trade_closed (on_trade_closed (on_trade_closed ⟨true, 2, 2, 12, 2, 8,
        fun _ => none, fun _ => none, fun _ => none, fun _ => none, fun _ => none, fun _ => none⟩
        "EURUSD" .LONG 10 (-5)) "EURUSD" .LONG 14 (-5)) "EURUSD" .SHORT 20 0)
        "EURUSD" .LONG 21).1.allow = false :=
  have h := c7_loss_streak_pause ⟨true, 2, 2, 12, 2, 8, fun _ => none, fun _ => none,
      fun _ => none, fun _ => none, fun _ => none, fun _ => none⟩ "EURUSD"
    .LONG .LONG .SHORT .LONG 10 14 20 21 (-5) (-5) 0
    rfl rfl (by norm_num) (by norm_num) (by norm_num) (by norm_num)
  ⟨h.1, h.2.2.1 (by norm_num)⟩

/-! ## Claim C9 -/

/-- Claim C9: the long and short v2 entry decisions are never both true
(the long base requires `ema_diff > 0`, the short base `ema_diff < 0`),
and the run loop evaluates long first, considering short only when long
was not selected, so at most one side is chosen per instrument per bar. -/
theorem c9_one_side_only (p_up ema_diff prob_threshold price ema_trend : ℚ)
    (ema_trend_prev : Option ℚ) (atr : ℚ) (adx vol_z : Option ℚ) (cfg : Cfg) :
    (should_open_long_v2 p_up ema_diff prob_threshold price ema_trend ema_trend_prev atr adx vol_z cfg = true →
      should_open_short_v2 p_up ema_diff prob_threshold price ema_trend ema_trend_prev atr adx vol_z cfg = false)
    ∧ (select_side p_up ema_diff prob_threshold price ema_trend ema_trend_prev atr adx vol_z cfg = some .SHORT →
      should_open_long_v2 p_up ema_diff prob_threshold price ema_trend ema_trend_prev atr adx vol_z cfg = false) := by
  have hl : should_open_long_v2 p_up ema_diff prob_threshold price ema_trend ema_trend_prev atr adx vol_z cfg = true →
      0 < ema_diff := by
    intro h
    simp only [should_open_long_v2] at h
    by_cases hbase : (decide (p_up ≥ prob_threshold) && decide (ema_diff > 0)) = false
    · rw [if_pos hbase] at h
      exact absurd h (by simp)
    · rw [Bool.not_eq_false, Bool.and_eq_true, decide_eq_true_eq, decide_eq_true_eq] at hbase
      exact hbase.2
  have hs : should_open_short_v2 p_up ema_diff prob_threshold price ema_trend ema_trend_prev atr adx vol_z cfg = true →
      ema_diff < 0 := by
    intro h
    simp only [should_open_short_v2] at h
    by_cases hbase : (decide (1 - p_up ≥ prob_threshold) && decide (ema_diff < 0)) = false
    · rw [if_pos hbase] at h
      exact absurd h (by simp)
    · rw [Bool.not_eq_false, Bool.and_eq_true, decide_eq_true_eq, decide_eq_true_eq] at hbase
      exact hbase.2
  constructor
  · intro h
    by_contra hc
    rw [Bool.not_eq_false] at hc
    have := hl h
    have := hs hc
    linarith
  · intro h
    by_contra hc
    rw [Bool.not_eq_false] at hc
    simp only [select_side, hc, if_true] at h
    exact Side.noConfusion (Option.some.injEq _ _ ▸ h)

/-- A configuration with all three filters disabled, used to exhibit a
concrete input on which the long v2 decision fires. -/
def c9_cfg : Cfg := ⟨⟨false, 8, 5/100, 18, false⟩, ⟨false, 0, 1000000000, true, 5/2⟩, ⟨false, true, true⟩⟩

/-- Witness for C9 at a concrete input: with every filter disabled,
`p_up = 1`, `ema_diff = 1` and threshold ½ select LONG, so the short
decision is false. -/
theorem c9_witness :
    should_open_short_v2 1 1 (1/2) 1 1 none 1 none none c9_cfg = false :=
  (c9_one_side_only 1 1 (1/2) 1 1 none 1 none none c9_cfg).1
    (by norm_num [should_open_long_v2, regime_decide, vol_decide, trend_guard_decide, c9_cfg])

/-! ## Claim C10 (corrected: a pass-through same-side call always mutates
the same-side streak tracking state, but not necessarily both fields — in
the unexpired-window branch the window start is left untouched) -/

/-- A guard state on which a same-side `can_enter` call that passes the
pause and cooldown checks leaves the window start unchanged. -/
def c10_g : EntryClusterGuard :=
  ⟨true, 2, 2, 12, 2, 8, fun _ => none, fun _ => some .LONG,
   fun _ => some 1, fun _ => some 0, fun _ => none, fun _ => none⟩

/-- Counterexample to C10 as stated: on `c10_g` the LONG attempt at bar 5
passes the pause and cooldown checks with the side equal to the last
recorded side, yet the same-side window start is NOT mutated (the window
has not expired, so only the streak count is written). -/
theorem c10_counterexample :
    pause_denies c10_g "EURUSD" 5 = false
    ∧ cooldown_denies c10_g "EURUSD" 5 = false
    ∧ c10_g.last_side "EURUSD" = some .LONG
    ∧ (can_enter c10_g "EURUSD" .LONG 5).2.same_side_window_start "EURUSD"
        = c10_g.same_side_window_start "EURUSD" := by
  refine ⟨rfl, rfl, rfl, ?_⟩
  norm_num [can_enter, c10_g, pause_denies, cooldown_denies, dset]

/-- Claim C10 (amended): with the guard enabled, a `can_enter` call denied
by the pause check or by the cooldown check returns the guard state
unchanged (for every instrument); a call that passes both checks with the
requested side equal to the last recorded side (window size non-negative)
mutates the same-side streak tracking state of that instrument — the
streak count, or the window start when the streak window has expired —
even when the call returns deny and no position is subsequently opened. -/
theorem c10_frame_effects (g : EntryClusterGuard) (pair : String) (side : Side)
    (bar : ℤ) (hen : g.enabled = true) :
    (pause_denies g pair bar = true →
      can_enter g pair side bar = (⟨false, "paused_until_bar"⟩, g))
    ∧ (pause_denies g pair bar = false → cooldown_denies g pair bar = true →
      can_enter g pair side bar = (⟨false, "cooldown_active"⟩, g))
    ∧ (pause_denies g pair bar = false → cooldown_denies g pair bar = false →
      g.last_side pair = some side → 0 ≤ g.window_bars →
      ¬((can_enter g pair side bar).2.same_side_count pair = g.same_side_count pair
        ∧ (can_enter g pair side bar).2.same_side_window_start pair
            = g.same_side_window_start pair)) := by
  refine ⟨?_, ?_, ?_⟩
  · intro hpd
    simp [can_enter, hen, hpd]
  · intro hpd hcd
    simp [can_enter, hen, hpd, hcd]
  · intro hpd hcd hside hw hboth
    obtain ⟨hcnt, hws⟩ := hboth
    by_cases hexp : bar - (g.same_side_window_start pair).getD bar > g.window_bars
    · have hnew : (can_enter g pair side bar).2.same_side_window_start pair = some bar := by
        simp [can_enter, hen, hpd, hcd, hside, hexp, dset, apply_ite]
      rw [hnew] at hws
      cases hws0 : g.same_side_window_start pair with
      | none =>
        rw [hws0, Option.getD_none] at hexp
        omega
      | some s =>
        rw [hws0, Option.getD_some] at hexp
        rw [hws0, Option.some.injEq] at hws
        omega
    · have hnew : (can_enter g pair side bar).2.same_side_count pair =
          some ((g.same_side_count pair).getD 1 + 1) := by
        simp [can_enter, hen, hpd, hcd, hside, hexp, dset, apply_ite]
      rw [hnew] at hcnt
      cases hc0 : g.same_side_count pair with
      | none => rw [hc0] at hcnt; exact Option.noConfusion hcnt
      | some c =>
        rw [hc0, Option.getD_some] at hcnt
        exact absurd (Option.some.inj hcnt) (by omega)

/-- Witness for the amended C10 at a concrete input: a paused guard
(paused until bar 10, attempt at bar 5) returns deny and exactly its own
state. -/
theorem c10_witness :
    can_enter ⟨true, 2, 2, 12, 2, 8, fun _ => none, fun _ => none, fun _ => none,
        fun _ => none, fun _ => none, fun _ => some 10⟩ "EURUSD" .LONG 5 =
      (⟨false, "paused_until_bar"⟩, ⟨true, 2, 2, 12, 2, 8, fun _ => none, fun _ => none,
        fun _ => none, fun _ => none, fun _ => none, fun _ => some 10⟩) :=
  (c10_frame_effects ⟨true, 2, 2, 12, 2, 8, fun _ => none, fun _ => none, fun _ => none,
      fun _ => none, fun _ => none, fun _ => some 10⟩ "EURUSD" .LONG 5 rfl).1 (by decide)
